import Mathlib

set_option autoImplicit false
set_option maxRecDepth 100000

namespace VllmPatch

/-!
Shallow embedding of `src/patches/apply-vllm-pr31607.py`.

File contents are modelled as `List Char`.  Python's substring test
(`pat in content`) is modelled by `occurs`, and Python's `str.replace`
(replace every non-overlapping occurrence, scanning left to right) by
`replaceAll`.  The single regular expression used by the script,
`r"< \(11, 0\)"`, contains only escaped literal characters, so `re.search`
and `re.sub` with it coincide with the literal substring operations on the
string `"< (11, 0)"`; it is embedded the same way.
-/

/-- Bool prefix test on char lists (Python slice comparison `s[i:i+n] == pat`). -/
def pfx : List Char → List Char → Bool
  | [], _ => true
  | _ :: _, [] => false
  | a :: us, b :: vs => a == b && pfx us vs

/-- Python substring test `pat in s`. -/
def occurs (pat : List Char) : List Char → Bool
  | [] => pfx pat []
  | c :: rest => pfx pat (c :: rest) || occurs pat rest

/-- Worker for `replaceAll`.  The `Nat` argument counts characters that belong
to an occurrence already replaced and must be dropped without rescanning
(Python's `str.replace` never rescans replaced text). -/
def repGo (pat rep : List Char) : List Char → Nat → List Char
  | [], _ => []
  | _ :: rest, Nat.succ k => repGo pat rep rest k
  | c :: rest, 0 =>
    if pfx pat (c :: rest) = true then rep ++ repGo pat rep rest (pat.length - 1)
    else c :: repGo pat rep rest 0

/-- Python `s.replace(pat, rep)` for a non-empty `pat`: every non-overlapping
occurrence is replaced, scanning left to right. -/
def replaceAll (pat rep s : List Char) : List Char := repGo pat rep s 0

theorem pfx_refl (u : List Char) : pfx u u = true := by
  induction u with
  | nil => rfl
  | cons a us ih => simp [pfx, ih]

theorem pfx_append_self (u t : List Char) : pfx u (u ++ t) = true := by
  induction u with
  | nil => rfl
  | cons a us ih => simp [pfx, ih]

theorem pfx_exists {u v : List Char} (h : pfx u v = true) : ∃ t, v = u ++ t := by
  induction u generalizing v with
  | nil => exact ⟨v, rfl⟩
  | cons a us ih =>
    cases v with
    | nil => simp [pfx] at h
    | cons b vs =>
      simp [pfx] at h
      obtain ⟨t, ht⟩ := ih h.2
      exact ⟨t, by simp [h.1, ht]⟩

theorem pfx_length {u v : List Char} (h : pfx u v = true) : u.length ≤ v.length := by
  obtain ⟨t, rfl⟩ := pfx_exists h
  simp

theorem pfx_mono_append {u x : List Char} (y : List Char) (h : pfx u x = true) :
    pfx u (x ++ y) = true := by
  obtain ⟨t, rfl⟩ := pfx_exists h
  rw [List.append_assoc]
  exact pfx_append_self _ _

theorem pfx_cancel {u x : List Char} {y : List Char} (h : pfx u (x ++ y) = true)
    (hl : u.length ≤ x.length) : pfx u x = true := by
  induction u generalizing x with
  | nil => rfl
  | cons a us ih =>
    cases x with
    | nil => simp at hl
    | cons b xs =>
      simp [pfx] at h ⊢
      exact ⟨h.1, ih h.2 (by simpa using hl)⟩

theorem pfx_split {pat v y : List Char} (h : pfx pat (v ++ y) = true)
    (hl : v.length ≤ pat.length) :
    pfx v pat = true ∧ pfx (pat.drop v.length) y = true := by
  induction v generalizing pat with
  | nil => exact ⟨rfl, by simpa using h⟩
  | cons b vs ih =>
    cases pat with
    | nil => simp at hl
    | cons a ps =>
      simp [pfx] at h ⊢
      obtain ⟨h1, h2⟩ := h
      have h3 := ih h2 (by simpa using hl)
      exact ⟨⟨h1.symm, h3.1⟩, h3.2⟩

theorem repGo_skip (pat rep : List Char) :
    ∀ (s : List Char) (k : Nat), repGo pat rep s k = repGo pat rep (s.drop k) 0 := by
  intro s
  induction s with
  | nil => intro k; cases k <;> rfl
  | cons c rest ih =>
    intro k
    cases k with
    | zero => rfl
    | succ k => simpa [repGo] using ih k

theorem replaceAll_nil (pat rep : List Char) : replaceAll pat rep [] = [] := rfl

theorem replaceAll_cons_pos (pat rep : List Char) (c : Char) (rest : List Char)
    (hpat : pat ≠ []) (h : pfx pat (c :: rest) = true) :
    replaceAll pat rep (c :: rest) =
      rep ++ replaceAll pat rep ((c :: rest).drop pat.length) := by
  have h1 : 1 ≤ pat.length := by
    cases pat with
    | nil => exact absurd rfl hpat
    | cons p ps => simp
  show repGo pat rep (c :: rest) 0 = _
  rw [show repGo pat rep (c :: rest) 0 =
        (if pfx pat (c :: rest) = true then rep ++ repGo pat rep rest (pat.length - 1)
         else c :: repGo pat rep rest 0) from rfl]
  rw [if_pos h, repGo_skip]
  obtain ⟨m, hm⟩ : ∃ m, pat.length = m + 1 := ⟨pat.length - 1, by omega⟩
  rw [hm]
  simp [replaceAll]

theorem replaceAll_cons_neg (pat rep : List Char) (c : Char) (rest : List Char)
    (h : pfx pat (c :: rest) = false) :
    replaceAll pat rep (c :: rest) = c :: replaceAll pat rep rest := by
  show repGo pat rep (c :: rest) 0 = _
  rw [show repGo pat rep (c :: rest) 0 =
        (if pfx pat (c :: rest) = true then rep ++ repGo pat rep rest (pat.length - 1)
         else c :: repGo pat rep rest 0) from rfl]
  rw [if_neg (by simp [h])]
  rfl

theorem replaceAll_not_occurs {pat s : List Char} (rep : List Char)
    (h : occurs pat s = false) : replaceAll pat rep s = s := by
  induction s with
  | nil => rfl
  | cons c rest ih =>
    simp only [occurs, Bool.or_eq_false_iff] at h
    rw [replaceAll_cons_neg _ _ _ _ h.1, ih h.2]

theorem replaceAll_self {pat : List Char} (rep : List Char) (hpat : pat ≠ []) :
    replaceAll pat rep pat = rep := by
  cases pat with
  | nil => exact absurd rfl hpat
  | cons c ps =>
    rw [replaceAll_cons_pos _ _ _ _ hpat (pfx_refl _), List.drop_length]
    simp [replaceAll_nil]

theorem drop_append_le {x : List Char} (y : List Char) {n : Nat} (h : n ≤ x.length) :
    (x ++ y).drop n = x.drop n ++ y := by
  rw [List.drop_append_eq_append_drop, Nat.sub_eq_zero_of_le h, List.drop_zero]

/-- Key splitting property of `replaceAll`: if no occurrence of `pat` in
`x ++ y` starts inside `x` and crosses into `y`, the scan factors through the
boundary. -/
theorem replaceAll_append (pat rep : List Char) (hpat : pat ≠ []) :
    ∀ (n : Nat) (x y : List Char), x.length ≤ n →
      (∀ q, q < x.length → pfx pat ((x ++ y).drop q) = true → q + pat.length ≤ x.length) →
      replaceAll pat rep (x ++ y) = replaceAll pat rep x ++ replaceAll pat rep y := by
  intro n
  induction n with
  | zero =>
    intro x y hx _
    have hx0 : x = [] := List.eq_nil_of_length_eq_zero (Nat.le_zero.mp hx)
    subst hx0
    simp [replaceAll_nil]
  | succ n ih =>
    intro x y hx H
    cases x with
    | nil => simp [replaceAll_nil]
    | cons c xs =>
      have hk1 : 1 ≤ pat.length := by
        cases pat with
        | nil => exact absurd rfl hpat
        | cons p ps => simp
      by_cases hp : pfx pat (c :: (xs ++ y)) = true
      · have hq0 := H 0 (by simp) (by simpa using hp)
        have hkx : pat.length ≤ xs.length + 1 := by simpa using hq0
        have hpx : pfx pat (c :: xs) = true := by
          have h' : pfx pat ((c :: xs) ++ y) = true := by simpa using hp
          exact pfx_cancel h' (by simpa using hkx)
        have e1 : replaceAll pat rep ((c :: xs) ++ y) =
            rep ++ replaceAll pat rep ((xs ++ y).drop (pat.length - 1)) := by
          rw [List.cons_append, replaceAll_cons_pos _ _ _ _ hpat hp]
          obtain ⟨m, hm⟩ : ∃ m, pat.length = m + 1 := ⟨pat.length - 1, by omega⟩
          rw [hm]
          simp
        have e2 : replaceAll pat rep (c :: xs) =
            rep ++ replaceAll pat rep (xs.drop (pat.length - 1)) := by
          rw [replaceAll_cons_pos _ _ _ _ hpat hpx]
          obtain ⟨m, hm⟩ : ∃ m, pat.length = m + 1 := ⟨pat.length - 1, by omega⟩
          rw [hm]
          simp
        rw [e1, e2]
        have hdrop : (xs ++ y).drop (pat.length - 1) = xs.drop (pat.length - 1) ++ y :=
          drop_append_le y (by omega)
        have hxs : xs.length ≤ n := by simp at hx; omega
        rw [hdrop, ih (xs.drop (pat.length - 1)) y (by simp only [List.length_drop]; omega) ?_]
        · simp
        · intro q hq hpf
          simp only [List.length_drop] at hq
          have hq' : pat.length + q < (c :: xs).length := by simp; omega
          have hpf' : pfx pat (((c :: xs) ++ y).drop (pat.length + q)) = true := by
            have e3 : ((c :: xs) ++ y).drop (pat.length + q) =
                (xs ++ y).drop (q + (pat.length - 1)) := by
              rw [List.cons_append, show pat.length + q = (q + (pat.length - 1)) + 1 by omega,
                List.drop_succ_cons]
            have e4 : (xs.drop (pat.length - 1) ++ y).drop q =
                (xs ++ y).drop (q + (pat.length - 1)) := by
              rw [← hdrop, List.drop_drop]
              congr 1
              omega
            rw [e3, ← e4]
            exact hpf
          have := H (pat.length + q) hq' hpf'
          simp only [List.length_drop]
          simp at this
          omega
      · have hp' : pfx pat (c :: (xs ++ y)) = false := by
          cases hcc : pfx pat (c :: (xs ++ y))
          · rfl
          · exact absurd hcc hp
        have hpx : pfx pat (c :: xs) = false := by
          cases hcc : pfx pat (c :: xs)
          · rfl
          · have : pfx pat ((c :: xs) ++ y) = true := pfx_mono_append y hcc
            rw [List.cons_append] at this
            exact absurd this hp
        rw [List.cons_append, replaceAll_cons_neg _ _ _ _ hp',
          replaceAll_cons_neg _ _ _ _ hpx]
        rw [ih xs y (by simp at hx; omega) ?_]
        · simp
        · intro q hq hpf
          have hq' : q + 1 < (c :: xs).length := by simp; omega
          have hpf' : pfx pat (((c :: xs) ++ y).drop (q + 1)) = true := by
            simpa using hpf
          have := H (q + 1) hq' hpf'
          simp at this ⊢
          omega

/-- Boundary guard usable when the right part is arbitrary: no proper suffix of
`x` is a prefix of `pat`, so no occurrence can straddle the `x ++ y` boundary. -/
theorem replaceAll_append_rightSafe (pat rep : List Char) (x y : List Char)
    (hpat : pat ≠ [])
    (hR : ∀ q, q < x.length → x.length < q + pat.length → pfx (x.drop q) pat = false) :
    replaceAll pat rep (x ++ y) = replaceAll pat rep x ++ replaceAll pat rep y := by
  refine replaceAll_append pat rep hpat x.length x y le_rfl ?_
  intro q hq hpf
  by_contra hlt
  push_neg at hlt
  rw [drop_append_le y (le_of_lt hq)] at hpf
  have hxl : (x.drop q).length ≤ pat.length := by
    simp only [List.length_drop]
    omega
  have hsp := pfx_split hpf hxl
  rw [hR q hq hlt] at hsp
  simpa using hsp.1

/-- Boundary guard usable when the left part is arbitrary: no proper non-empty
suffix of `pat` is a prefix of `y`, so no occurrence can straddle the boundary. -/
theorem replaceAll_append_leftSafe (pat rep : List Char) (x y : List Char)
    (hpat : pat ≠ [])
    (hL : ∀ j, j < pat.length → 1 ≤ j → pfx (pat.drop j) y = false) :
    replaceAll pat rep (x ++ y) = replaceAll pat rep x ++ replaceAll pat rep y := by
  refine replaceAll_append pat rep hpat x.length x y le_rfl ?_
  intro q hq hpf
  by_contra hlt
  push_neg at hlt
  rw [drop_append_le y (le_of_lt hq)] at hpf
  have hxl : (x.drop q).length ≤ pat.length := by
    simp only [List.length_drop]
    omega
  have hsp := pfx_split hpf hxl
  have hj := hL (x.drop q).length (by simp only [List.length_drop]; omega)
    (by simp only [List.length_drop]; omega)
  rw [hj] at hsp
  simpa using hsp.2

/-- Three-way split of a `replaceAll` scan around a middle block `u` that no
occurrence of `pat` can straddle. -/
theorem replaceAll_split (pat rep u : List Char) (a b : List Char) (hpat : pat ≠ [])
    (hlen : pat.length ≤ u.length + 1)
    (hL : ∀ j, j < pat.length → 1 ≤ j → pfx (pat.drop j) u = false)
    (hR : ∀ q, q < u.length → u.length < q + pat.length → pfx (u.drop q) pat = false) :
    replaceAll pat rep (a ++ u ++ b) =
      replaceAll pat rep a ++ replaceAll pat rep u ++ replaceAll pat rep b := by
  rw [List.append_assoc]
  rw [replaceAll_append_leftSafe pat rep a (u ++ b) hpat ?_]
  · rw [replaceAll_append_rightSafe pat rep u b hpat hR, List.append_assoc]
  · intro j hj h1j
    cases hc : pfx (pat.drop j) (u ++ b)
    · rfl
    · exfalso
      have hlj : (pat.drop j).length ≤ u.length := by
        simp only [List.length_drop]
        omega
      have := pfx_cancel hc hlj
      rw [hL j hj h1j] at this
      simp at this

/-- The shown occurrence of a non-self-overlapping `pat` is rewritten to `rep`,
and the surrounding context is processed independently. -/
theorem replaceAll_mid_self (pat rep : List Char) (hpat : pat ≠ [])
    (hS : ∀ j, j < pat.length → 1 ≤ j → pfx (pat.drop j) pat = false)
    (a b : List Char) :
    replaceAll pat rep (a ++ pat ++ b) =
      replaceAll pat rep a ++ rep ++ replaceAll pat rep b := by
  rw [replaceAll_split pat rep pat a b hpat (by omega) hS ?_, replaceAll_self rep hpat]
  intro q hq hlt
  exact hS q hq (by omega)

/-- A middle block `u` free of `pat` occurrences, which `pat` cannot straddle,
survives the scan byte for byte. -/
theorem replaceAll_mid_keep (pat rep u : List Char) (hpat : pat ≠ [])
    (hlen : pat.length ≤ u.length + 1)
    (hL : ∀ j, j < pat.length → 1 ≤ j → pfx (pat.drop j) u = false)
    (hR : ∀ q, q < u.length → u.length < q + pat.length → pfx (u.drop q) pat = false)
    (hocc : occurs pat u = false) (a b : List Char) :
    replaceAll pat rep (a ++ u ++ b) =
      replaceAll pat rep a ++ u ++ replaceAll pat rep b := by
  rw [replaceAll_split pat rep u a b hpat hlen hL hR, replaceAll_not_occurs rep hocc]

theorem occurs_self_append (pat t : List Char) : occurs pat (pat ++ t) = true := by
  cases pat with
  | nil =>
    cases t with
    | nil => rfl
    | cons c r => simp [occurs, pfx]
  | cons c ps =>
    have h : pfx (c :: ps) ((c :: ps) ++ t) = true := pfx_append_self _ _
    rw [List.cons_append] at h
    simp [occurs, h]

theorem occurs_append_of_right {pat y : List Char} (x : List Char)
    (h : occurs pat y = true) : occurs pat (x ++ y) = true := by
  induction x with
  | nil => simpa
  | cons c xs ih => simp [occurs, ih]

theorem occurs_exists {pat s : List Char} (h : occurs pat s = true) :
    ∃ a b, s = a ++ pat ++ b := by
  induction s with
  | nil =>
    have h' : pfx pat [] = true := by simpa [occurs] using h
    obtain ⟨t, ht⟩ := pfx_exists h'
    exact ⟨[], t, by simpa using ht⟩
  | cons c rest ih =>
    have h' : pfx pat (c :: rest) = true ∨ occurs pat rest = true := by
      simpa [occurs, Bool.or_eq_true] using h
    rcases h' with h1 | h2
    · obtain ⟨t, ht⟩ := pfx_exists h1
      exact ⟨[], t, by simpa using ht⟩
    · obtain ⟨a, b, hab⟩ := ih h2
      exact ⟨c :: a, b, by simp [hab]⟩

theorem occurs_mono {m u : List Char} (x y : List Char) (h : occurs m u = true) :
    occurs m (x ++ u ++ y) = true := by
  obtain ⟨p, q, rfl⟩ := occurs_exists h
  have hre : x ++ (p ++ m ++ q) ++ y = (x ++ p) ++ (m ++ (q ++ y)) := by simp
  rw [hre]
  exact occurs_append_of_right _ (occurs_self_append _ _)

/-!
The literal search/replacement strings of the script, transcribed verbatim
(source lines are given with each constant).
-/

/-- `patch_custom_ops`, idempotency marker, line 30. -/
def mark1 : List Char :=
  ("cutlass_scaled_mm_supports_fp8 unavailable").data

/-- `patch_custom_ops`, `old`, lines 35-36. -/
def oldA : List Char :=
  ("def cutlass_scaled_mm_supports_fp8(cuda_device_capability: int) -> bool:\n    return torch.ops._C.cutlass_scaled_mm_supports_fp8(cuda_device_capability)").data

/-- `patch_custom_ops`, `new`, lines 38-44. -/
def newA : List Char :=
  ("def cutlass_scaled_mm_supports_fp8(cuda_device_capability: int) -> bool:\n    try:\n        return torch.ops._C.cutlass_scaled_mm_supports_fp8(cuda_device_capability)\n    except Exception as e:\n        import warnings\n        warnings.warn(f\"cutlass_scaled_mm_supports_fp8 unavailable: {e}\")\n        return False").data

/-- `patch_custom_ops`, `old2`, lines 53-55. -/
def oldB : List Char :=
  ("def cutlass_scaled_mm_supports_block_fp8(cuda_device_capability: int) -> bool:\n    return torch.ops._C.cutlass_scaled_mm_supports_block_fp8(\n        cuda_device_capability)").data

/-- `patch_custom_ops`, `new2`, lines 57-64. -/
def newB : List Char :=
  ("def cutlass_scaled_mm_supports_block_fp8(cuda_device_capability: int) -> bool:\n    try:\n        return torch.ops._C.cutlass_scaled_mm_supports_block_fp8(\n            cuda_device_capability)\n    except Exception as e:\n        import warnings\n        warnings.warn(f\"cutlass_scaled_mm_supports_block_fp8 unavailable: {e}\")\n        return False").data

/-- `patch_mxfp4`, idempotency marker, line 89; also the replacement, line 96. -/
def markM : List Char := ("<= (12, 1)").data

/-- `patch_mxfp4`, `old_pattern` (line 95): the regex `< \(11, 0\)` matches
exactly this literal string. -/
def patM : List Char := ("< (11, 0)").data

/-- `patch_mxfp4`, `new_pattern`, line 96. -/
def repM : List Char := ("<= (12, 1)").data

/-- `patch_w8a8_utils`, first idempotency marker substring, line 121. -/
def markW1 : List Char := ("CUTLASS_FP8_SUPPORTED = False").data

/-- `patch_w8a8_utils`, second idempotency marker substring, line 121. -/
def markW2 : List Char := ("except Exception").data

/-- `patch_w8a8_utils`, `old`, line 126. -/
def oldW1 : List Char := ("CUTLASS_FP8_SUPPORTED = cutlass_fp8_supported()").data

/-- `patch_w8a8_utils`, `new`, lines 127-130. -/
def newW1 : List Char :=
  ("try:\n    CUTLASS_FP8_SUPPORTED = cutlass_fp8_supported()\nexcept Exception:\n    CUTLASS_FP8_SUPPORTED = False").data

/-- `patch_w8a8_utils`, `old2`, line 139. -/
def oldW2 : List Char := ("CUTLASS_BLOCK_FP8_SUPPORTED = cutlass_block_fp8_supported()").data

/-- `patch_w8a8_utils`, `new2`, lines 140-143. -/
def newW2 : List Char :=
  ("try:\n    CUTLASS_BLOCK_FP8_SUPPORTED = cutlass_block_fp8_supported()\nexcept Exception:\n    CUTLASS_BLOCK_FP8_SUPPORTED = False").data

/-- `patch_matcher_utils`, idempotency marker, line 168. -/
def markT : List Char := ("hasattr(torch.ops._C, \"silu_and_mul\")").data

/-- `patch_matcher_utils`, `old`, line 175. -/
def oldT0 : List Char := ("SILU_MUL_OP = torch.ops._C.silu_and_mul.default").data

/-- `patch_matcher_utils`, `new`, line 176. -/
def newT0 : List Char :=
  ("SILU_MUL_OP = torch.ops._C.silu_and_mul.default if hasattr(torch.ops._C, \"silu_and_mul\") else None").data

/-- `patch_matcher_utils`, first fp8 pattern, lines 185-186. -/
def oldT1 : List Char := ("torch.ops._C.static_scaled_fp8_quant.default").data

def newT1 : List Char :=
  ("torch.ops._C.static_scaled_fp8_quant.default if hasattr(torch.ops._C, \"static_scaled_fp8_quant\") else None").data

/-- `patch_matcher_utils`, second fp8 pattern, lines 187-188. -/
def oldT2 : List Char := ("torch.ops._C.dynamic_scaled_fp8_quant.default").data

def newT2 : List Char :=
  ("torch.ops._C.dynamic_scaled_fp8_quant.default if hasattr(torch.ops._C, \"dynamic_scaled_fp8_quant\") else None").data

/-- `patch_matcher_utils`, third fp8 pattern, lines 189-190. -/
def oldT3 : List Char := ("torch.ops._C.dynamic_per_token_scaled_fp8_quant.default").data

def newT3 : List Char :=
  ("torch.ops._C.dynamic_per_token_scaled_fp8_quant.default if hasattr(torch.ops._C, \"dynamic_per_token_scaled_fp8_quant\") else None").data

/-- Substring checked by the guard on line 195. -/
def hasattrT : List Char := ("hasattr").data

/-!
Data model.  A target file is an external resource: it may be absent, and a
read or a write may fail (permissions, I/O).  `FileView` captures the state
the script can observe; errors are modelled atomically (a failed write leaves
the previous content in place).
-/

/-- The spec's `PatchOutcome`, derived from the code path a unit takes: the
code prints SKIP / PATCHED / WARNING messages on the corresponding paths but
returns only a Bool; the outcome classifies the path taken, with a rule
counted as matched exactly when its replacement was executed. -/
inductive PatchOutcome where
  | skippedMissing
  | alreadyApplied
  | applied
  | partiallyApplied
  | noop
  deriving DecidableEq

/-- I/O failure while processing one unit (an uncaught Python `OSError`). -/
inductive IOErr where
  | readErr
  | writeErr
  deriving DecidableEq

/-- Observable state of one target file plus the accessibility facts that
decide whether `os.path.exists`, `open(..., 'r')` and `open(..., 'w')`
succeed. -/
structure FileView where
  fexists : Bool
  readable : Bool
  writable : Bool
  content : List Char
  deriving DecidableEq

/-- What one patch function produces when it returns normally: the Python
return value `ret`, whether a write was performed, and the derived outcome. -/
structure UnitResult where
  outcome : PatchOutcome
  ret : Bool
  wrote : Bool
  deriving DecidableEq

/-- Outcome of a two-rule unit from the two matched flags (spec section 4.1,
result classification). -/
def classify2 (m1 m2 : Bool) : PatchOutcome :=
  if m1 && m2 then .applied else if m1 || m2 then .partiallyApplied else .noop

/-- Outcome of the one-rule `patch_mxfp4` unit. -/
def classifyM (m : Bool) : PatchOutcome :=
  if m = true then .applied else .noop

/-- Outcome of the four-rule `patch_matcher_utils` unit. -/
def classify4 (m0 m1 m2 m3 : Bool) : PatchOutcome :=
  if m0 && m1 && m2 && m3 then .applied
  else if m0 || m1 || m2 || m3 then .partiallyApplied else .noop

/-- Lines 46-47: `if old in content: content = content.replace(old, new)`. -/
def stepA (c : List Char) : List Char :=
  if occurs oldA c = true then replaceAll oldA newA c else c

/-- Lines 66-67: the second rule of `patch_custom_ops`. -/
def stepB (c : List Char) : List Char :=
  if occurs oldB c = true then replaceAll oldB newB c else c

/-- Lines 98-99: `if re.search(...): content = re.sub(...)`. -/
def stepM (c : List Char) : List Char :=
  if occurs patM c = true then replaceAll patM repM c else c

/-- Lines 132-133: first rule of `patch_w8a8_utils`. -/
def stepW1 (c : List Char) : List Char :=
  if occurs oldW1 c = true then replaceAll oldW1 newW1 c else c

/-- Lines 145-146: second rule of `patch_w8a8_utils`. -/
def stepW2 (c : List Char) : List Char :=
  if occurs oldW2 c = true then replaceAll oldW2 newW2 c else c

/-- Python `content.split(old_pat)[0]`: the text before the first occurrence
of `pat` (the whole list when `pat` is absent). -/
def beforeFirst (pat : List Char) : List Char → List Char
  | [] => []
  | c :: rest => if pfx pat (c :: rest) = true then [] else c :: beforeFirst pat rest

/-- Python `l.split('\n')[-1]`: the text after the last newline. -/
def lastLineOf (l : List Char) : List Char :=
  (l.reverse.takeWhile (fun c => c != '\n')).reverse

/-- Line 195 guard: `old_pat in content and 'hasattr' not in
content.split(old_pat)[0].split('\n')[-1]`. -/
def guardT (old c : List Char) : Bool :=
  occurs old c && !(occurs hasattrT (lastLineOf (beforeFirst old c)))

/-- Lines 178-179: the (unguarded) SILU rule of `patch_matcher_utils`. -/
def stepT0 (c : List Char) : List Char :=
  if occurs oldT0 c = true then replaceAll oldT0 newT0 c else c

/-- Lines 195-196: one guarded fp8 rule of `patch_matcher_utils`. -/
def stepTG (old new c : List Char) : List Char :=
  if guardT old c = true then replaceAll old new c else c

/-- Matched flag of the SILU rule (line 178). -/
def mT0 (c : List Char) : Bool := occurs oldT0 c

def cT1 (c : List Char) : List Char := stepT0 c

def mT1 (c : List Char) : Bool := guardT oldT1 (cT1 c)

def cT2 (c : List Char) : List Char := stepTG oldT1 newT1 (cT1 c)

def mT2 (c : List Char) : Bool := guardT oldT2 (cT2 c)

def cT3 (c : List Char) : List Char := stepTG oldT2 newT2 (cT2 c)

def mT3 (c : List Char) : Bool := guardT oldT3 (cT3 c)

def cT4 (c : List Char) : List Char := stepTG oldT3 newT3 (cT3 c)

/-- `patch_custom_ops` (lines 19-75).  Exists-check, read, marker check,
two rules, unconditional write-back, return value. -/
def patchCustomOps (fv : FileView) : Except IOErr (UnitResult × FileView) :=
  if fv.fexists = false then .ok (⟨.skippedMissing, false, false⟩, fv)
  else if fv.readable = false then .error .readErr
  else if occurs mark1 fv.content = true then .ok (⟨.alreadyApplied, true, false⟩, fv)
  else if fv.writable = false then .error .writeErr
  else .ok (⟨classify2 (occurs oldA fv.content) (occurs oldB (stepA fv.content)), true, true⟩,
            { fv with content := stepB (stepA fv.content) })

/-- `patch_mxfp4` (lines 78-107). -/
def patchMxfp4 (fv : FileView) : Except IOErr (UnitResult × FileView) :=
  if fv.fexists = false then .ok (⟨.skippedMissing, false, false⟩, fv)
  else if fv.readable = false then .error .readErr
  else if occurs markM fv.content = true then .ok (⟨.alreadyApplied, true, false⟩, fv)
  else if fv.writable = false then .error .writeErr
  else .ok (⟨classifyM (occurs patM fv.content), true, true⟩,
            { fv with content := stepM fv.content })

/-- `patch_w8a8_utils` (lines 110-154).  The idempotency predicate (line 121)
is the conjunction of two substring tests. -/
def patchW8a8 (fv : FileView) : Except IOErr (UnitResult × FileView) :=
  if fv.fexists = false then .ok (⟨.skippedMissing, false, false⟩, fv)
  else if fv.readable = false then .error .readErr
  else if (occurs markW1 fv.content && occurs markW2 fv.content) = true then
    .ok (⟨.alreadyApplied, true, false⟩, fv)
  else if fv.writable = false then .error .writeErr
  else .ok (⟨classify2 (occurs oldW1 fv.content) (occurs oldW2 (stepW1 fv.content)), true, true⟩,
            { fv with content := stepW2 (stepW1 fv.content) })

/-- `patch_matcher_utils` (lines 157-206). -/
def patchMatcher (fv : FileView) : Except IOErr (UnitResult × FileView) :=
  if fv.fexists = false then .ok (⟨.skippedMissing, false, false⟩, fv)
  else if fv.readable = false then .error .readErr
  else if occurs markT fv.content = true then .ok (⟨.alreadyApplied, true, false⟩, fv)
  else if fv.writable = false then .error .writeErr
  else .ok (⟨classify4 (mT0 fv.content) (mT1 fv.content) (mT2 fv.content) (mT3 fv.content),
             true, true⟩,
            { fv with content := cT4 fv.content })

/-- The four target files of one run. -/
structure World where
  customOps : FileView
  mxfp4 : FileView
  w8a8 : FileView
  matcher : FileView
  deriving DecidableEq

/-- `main` (lines 209-235) together with `sys.exit(main())` (line 239): the
four units run in order; a normal completion carries the four unit results
and the return value of `main` (0 or 1); an uncaught I/O exception aborts the
run at the failing unit, and the second component is the state of the files
at that point.  Note that the list comprehension on line 229 makes `main`
return 1 exactly when some unit returned `False`. -/
def mainRun (w : World) : Except IOErr (List UnitResult × Nat) × World :=
  match patchCustomOps w.customOps with
  | .error e => (.error e, w)
  | .ok (r1, f1) =>
    let w1 : World := { w with customOps := f1 }
    match patchMxfp4 w1.mxfp4 with
    | .error e => (.error e, w1)
    | .ok (r2, f2) =>
      let w2 : World := { w1 with mxfp4 := f2 }
      match patchW8a8 w2.w8a8 with
      | .error e => (.error e, w2)
      | .ok (r3, f3) =>
        let w3 : World := { w2 with w8a8 := f3 }
        match patchMatcher w3.matcher with
        | .error e => (.error e, w3)
        | .ok (r4, f4) =>
          let w4 : World := { w3 with matcher := f4 }
          (.ok ([r1, r2, r3, r4], if r1.ret && r2.ret && r3.ret && r4.ret then 0 else 1), w4)

/-- Observed Python return value of one unit (`none` when the unit raised). -/
def retOf (e : Except IOErr (UnitResult × FileView)) : Option Bool :=
  match e with
  | .ok (r, _) => some r.ret
  | .error _ => none

/-- Observed process exit indicator (`none` when the run aborted with an
uncaught exception). -/
def exitCodeOf (w : World) : Option Nat :=
  match (mainRun w).1 with
  | .ok (_, n) => some n
  | .error _ => none

/-! Branch lemmas: one equation per control path of each unit. -/

theorem customOps_missing (fv : FileView) (h : fv.fexists = false) :
    patchCustomOps fv = .ok (⟨.skippedMissing, false, false⟩, fv) := by
  simp [patchCustomOps, h]

theorem customOps_readErr (fv : FileView) (h1 : fv.fexists = true)
    (h2 : fv.readable = false) : patchCustomOps fv = .error .readErr := by
  simp [patchCustomOps, h1, h2]

theorem customOps_marked (fv : FileView) (h1 : fv.fexists = true)
    (h2 : fv.readable = true) (h3 : occurs mark1 fv.content = true) :
    patchCustomOps fv = .ok (⟨.alreadyApplied, true, false⟩, fv) := by
  simp [patchCustomOps, h1, h2, h3]

theorem customOps_writeErr (fv : FileView) (h1 : fv.fexists = true)
    (h2 : fv.readable = true) (h3 : occurs mark1 fv.content = false)
    (h4 : fv.writable = false) : patchCustomOps fv = .error .writeErr := by
  simp [patchCustomOps, h1, h2, h3, h4]

theorem customOps_run (fv : FileView) (h1 : fv.fexists = true)
    (h2 : fv.readable = true) (h3 : occurs mark1 fv.content = false)
    (h4 : fv.writable = true) :
    patchCustomOps fv =
      .ok (⟨classify2 (occurs oldA fv.content) (occurs oldB (stepA fv.content)), true, true⟩,
           { fv with content := stepB (stepA fv.content) }) := by
  simp [patchCustomOps, h1, h2, h3, h4]

theorem mxfp4_missing (fv : FileView) (h : fv.fexists = false) :
    patchMxfp4 fv = .ok (⟨.skippedMissing, false, false⟩, fv) := by
  simp [patchMxfp4, h]

theorem mxfp4_readErr (fv : FileView) (h1 : fv.fexists = true)
    (h2 : fv.readable = false) : patchMxfp4 fv = .error .readErr := by
  simp [patchMxfp4, h1, h2]

theorem mxfp4_marked (fv : FileView) (h1 : fv.fexists = true)
    (h2 : fv.readable = true) (h3 : occurs markM fv.content = true) :
    patchMxfp4 fv = .ok (⟨.alreadyApplied, true, false⟩, fv) := by
  simp [patchMxfp4, h1, h2, h3]

theorem mxfp4_writeErr (fv : FileView) (h1 : fv.fexists = true)
    (h2 : fv.readable = true) (h3 : occurs markM fv.content = false)
    (h4 : fv.writable = false) : patchMxfp4 fv = .error .writeErr := by
  simp [patchMxfp4, h1, h2, h3, h4]

theorem mxfp4_run (fv : FileView) (h1 : fv.fexists = true)
    (h2 : fv.readable = true) (h3 : occurs markM fv.content = false)
    (h4 : fv.writable = true) :
    patchMxfp4 fv =
      .ok (⟨classifyM (occurs patM fv.content), true, true⟩,
           { fv with content := stepM fv.content }) := by
  simp [patchMxfp4, h1, h2, h3, h4]

theorem w8a8_missing (fv : FileView) (h : fv.fexists = false) :
    patchW8a8 fv = .ok (⟨.skippedMissing, false, false⟩, fv) := by
  simp [patchW8a8, h]

theorem w8a8_readErr (fv : FileView) (h1 : fv.fexists = true)
    (h2 : fv.readable = false) : patchW8a8 fv = .error .readErr := by
  simp [patchW8a8, h1, h2]

theorem w8a8_marked (fv : FileView) (h1 : fv.fexists = true)
    (h2 : fv.readable = true)
    (h3 : (occurs markW1 fv.content && occurs markW2 fv.content) = true) :
    patchW8a8 fv = .ok (⟨.alreadyApplied, true, false⟩, fv) := by
  simp [patchW8a8, h1, h2, h3]

theorem w8a8_writeErr (fv : FileView) (h1 : fv.fexists = true)
    (h2 : fv.readable = true)
    (h3 : (occurs markW1 fv.content && occurs markW2 fv.content) = false)
    (h4 : fv.writable = false) : patchW8a8 fv = .error .writeErr := by
  simp [patchW8a8, h1, h2, h3, h4]

theorem w8a8_run (fv : FileView) (h1 : fv.fexists = true)
    (h2 : fv.readable = true)
    (h3 : (occurs markW1 fv.content && occurs markW2 fv.content) = false)
    (h4 : fv.writable = true) :
    patchW8a8 fv =
      .ok (⟨classify2 (occurs oldW1 fv.content) (occurs oldW2 (stepW1 fv.content)), true, true⟩,
           { fv with content := stepW2 (stepW1 fv.content) }) := by
  simp [patchW8a8, h1, h2, h3, h4]

theorem matcher_missing (fv : FileView) (h : fv.fexists = false) :
    patchMatcher fv = .ok (⟨.skippedMissing, false, false⟩, fv) := by
  simp [patchMatcher, h]

theorem matcher_readErr (fv : FileView) (h1 : fv.fexists = true)
    (h2 : fv.readable = false) : patchMatcher fv = .error .readErr := by
  simp [patchMatcher, h1, h2]

theorem matcher_marked (fv : FileView) (h1 : fv.fexists = true)
    (h2 : fv.readable = true) (h3 : occurs markT fv.content = true) :
    patchMatcher fv = .ok (⟨.alreadyApplied, true, false⟩, fv) := by
  simp [patchMatcher, h1, h2, h3]

theorem matcher_writeErr (fv : FileView) (h1 : fv.fexists = true)
    (h2 : fv.readable = true) (h3 : occurs markT fv.content = false)
    (h4 : fv.writable = false) : patchMatcher fv = .error .writeErr := by
  simp [patchMatcher, h1, h2, h3, h4]

theorem matcher_run (fv : FileView) (h1 : fv.fexists = true)
    (h2 : fv.readable = true) (h3 : occurs markT fv.content = false)
    (h4 : fv.writable = true) :
    patchMatcher fv =
      .ok (⟨classify4 (mT0 fv.content) (mT1 fv.content) (mT2 fv.content) (mT3 fv.content),
            true, true⟩,
           { fv with content := cT4 fv.content }) := by
  simp [patchMatcher, h1, h2, h3, h4]

theorem classify2_ne_missing (a b : Bool) : ¬(classify2 a b = .skippedMissing) := by
  cases a <;> cases b <;> simp [classify2]

theorem classifyM_ne_missing (a : Bool) : ¬(classifyM a = .skippedMissing) := by
  cases a <;> simp [classifyM]

theorem classify4_ne_missing (a b c d : Bool) : ¬(classify4 a b c d = .skippedMissing) := by
  cases a <;> cases b <;> cases c <;> cases d <;> simp [classify4]

theorem classify2_applied {a b : Bool} (h : classify2 a b = .applied) :
    a = true ∧ b = true := by
  cases a <;> cases b <;> simp_all [classify2]

theorem classifyM_applied {a : Bool} (h : classifyM a = .applied) : a = true := by
  cases a <;> simp_all [classifyM]

theorem fileView_update_self (fv : FileView) : { fv with content := fv.content } = fv := rfl

/-! Case analyses of the four units: a normal return comes from exactly one of
the three non-raising paths. -/

theorem customOps_shape {fv : FileView} {r : UnitResult} {f' : FileView}
    (h : patchCustomOps fv = .ok (r, f')) :
    (fv.fexists = false ∧ r = ⟨.skippedMissing, false, false⟩ ∧ f' = fv) ∨
    (fv.fexists = true ∧ fv.readable = true ∧ occurs mark1 fv.content = true ∧
      r = ⟨.alreadyApplied, true, false⟩ ∧ f' = fv) ∨
    (fv.fexists = true ∧ fv.readable = true ∧ occurs mark1 fv.content = false ∧
      fv.writable = true ∧
      r = ⟨classify2 (occurs oldA fv.content) (occurs oldB (stepA fv.content)), true, true⟩ ∧
      f' = { fv with content := stepB (stepA fv.content) }) := by
  by_cases h1 : fv.fexists = false
  · left
    rw [customOps_missing fv h1] at h
    simp only [Except.ok.injEq, Prod.mk.injEq] at h
    exact ⟨h1, h.1.symm, h.2.symm⟩
  · have h1' : fv.fexists = true := by revert h1; cases fv.fexists <;> simp
    by_cases h2 : fv.readable = false
    · rw [customOps_readErr fv h1' h2] at h
      exact absurd h (by simp)
    · have h2' : fv.readable = true := by revert h2; cases fv.readable <;> simp
      by_cases h3 : occurs mark1 fv.content = true
      · right; left
        rw [customOps_marked fv h1' h2' h3] at h
        simp only [Except.ok.injEq, Prod.mk.injEq] at h
        exact ⟨h1', h2', h3, h.1.symm, h.2.symm⟩
      · have h3' : occurs mark1 fv.content = false := by
          revert h3; cases occurs mark1 fv.content <;> simp
        by_cases h4 : fv.writable = false
        · rw [customOps_writeErr fv h1' h2' h3' h4] at h
          exact absurd h (by simp)
        · have h4' : fv.writable = true := by revert h4; cases fv.writable <;> simp
          right; right
          rw [customOps_run fv h1' h2' h3' h4'] at h
          simp only [Except.ok.injEq, Prod.mk.injEq] at h
          exact ⟨h1', h2', h3', h4', h.1.symm, h.2.symm⟩

theorem mxfp4_shape {fv : FileView} {r : UnitResult} {f' : FileView}
    (h : patchMxfp4 fv = .ok (r, f')) :
    (fv.fexists = false ∧ r = ⟨.skippedMissing, false, false⟩ ∧ f' = fv) ∨
    (fv.fexists = true ∧ fv.readable = true ∧ occurs markM fv.content = true ∧
      r = ⟨.alreadyApplied, true, false⟩ ∧ f' = fv) ∨
    (fv.fexists = true ∧ fv.readable = true ∧ occurs markM fv.content = false ∧
      fv.writable = true ∧
      r = ⟨classifyM (occurs patM fv.content), true, true⟩ ∧
      f' = { fv with content := stepM fv.content }) := by
  by_cases h1 : fv.fexists = false
  · left
    rw [mxfp4_missing fv h1] at h
    simp only [Except.ok.injEq, Prod.mk.injEq] at h
    exact ⟨h1, h.1.symm, h.2.symm⟩
  · have h1' : fv.fexists = true := by revert h1; cases fv.fexists <;> simp
    by_cases h2 : fv.readable = false
    · rw [mxfp4_readErr fv h1' h2] at h
      exact absurd h (by simp)
    · have h2' : fv.readable = true := by revert h2; cases fv.readable <;> simp
      by_cases h3 : occurs markM fv.content = true
      · right; left
        rw [mxfp4_marked fv h1' h2' h3] at h
        simp only [Except.ok.injEq, Prod.mk.injEq] at h
        exact ⟨h1', h2', h3, h.1.symm, h.2.symm⟩
      · have h3' : occurs markM fv.content = false := by
          revert h3; cases occurs markM fv.content <;> simp
        by_cases h4 : fv.writable = false
        · rw [mxfp4_writeErr fv h1' h2' h3' h4] at h
          exact absurd h (by simp)
        · have h4' : fv.writable = true := by revert h4; cases fv.writable <;> simp
          right; right
          rw [mxfp4_run fv h1' h2' h3' h4'] at h
          simp only [Except.ok.injEq, Prod.mk.injEq] at h
          exact ⟨h1', h2', h3', h4', h.1.symm, h.2.symm⟩

theorem w8a8_shape {fv : FileView} {r : UnitResult} {f' : FileView}
    (h : patchW8a8 fv = .ok (r, f')) :
    (fv.fexists = false ∧ r = ⟨.skippedMissing, false, false⟩ ∧ f' = fv) ∨
    (fv.fexists = true ∧ fv.readable = true ∧
      (occurs markW1 fv.content && occurs markW2 fv.content) = true ∧
      r = ⟨.alreadyApplied, true, false⟩ ∧ f' = fv) ∨
    (fv.fexists = true ∧ fv.readable = true ∧
      (occurs markW1 fv.content && occurs markW2 fv.content) = false ∧
      fv.writable = true ∧
      r = ⟨classify2 (occurs oldW1 fv.content) (occurs oldW2 (stepW1 fv.content)), true, true⟩ ∧
      f' = { fv with content := stepW2 (stepW1 fv.content) }) := by
  by_cases h1 : fv.fexists = false
  · left
    rw [w8a8_missing fv h1] at h
    simp only [Except.ok.injEq, Prod.mk.injEq] at h
    exact ⟨h1, h.1.symm, h.2.symm⟩
  · have h1' : fv.fexists = true := by revert h1; cases fv.fexists <;> simp
    by_cases h2 : fv.readable = false
    · rw [w8a8_readErr fv h1' h2] at h
      exact absurd h (by simp)
    · have h2' : fv.readable = true := by revert h2; cases fv.readable <;> simp
      by_cases h3 : (occurs markW1 fv.content && occurs markW2 fv.content) = true
      · right; left
        rw [w8a8_marked fv h1' h2' h3] at h
        simp only [Except.ok.injEq, Prod.mk.injEq] at h
        exact ⟨h1', h2', h3, h.1.symm, h.2.symm⟩
      · have h3' : (occurs markW1 fv.content && occurs markW2 fv.content) = false := by
          revert h3; cases occurs markW1 fv.content && occurs markW2 fv.content <;> simp
        by_cases h4 : fv.writable = false
        · rw [w8a8_writeErr fv h1' h2' h3' h4] at h
          exact absurd h (by simp)
        · have h4' : fv.writable = true := by revert h4; cases fv.writable <;> simp
          right; right
          rw [w8a8_run fv h1' h2' h3' h4'] at h
          simp only [Except.ok.injEq, Prod.mk.injEq] at h
          exact ⟨h1', h2', h3', h4', h.1.symm, h.2.symm⟩

theorem matcher_shape {fv : FileView} {r : UnitResult} {f' : FileView}
    (h : patchMatcher fv = .ok (r, f')) :
    (fv.fexists = false ∧ r = ⟨.skippedMissing, false, false⟩ ∧ f' = fv) ∨
    (fv.fexists = true ∧ fv.readable = true ∧ occurs markT fv.content = true ∧
      r = ⟨.alreadyApplied, true, false⟩ ∧ f' = fv) ∨
    (fv.fexists = true ∧ fv.readable = true ∧ occurs markT fv.content = false ∧
      fv.writable = true ∧
      r = ⟨classify4 (mT0 fv.content) (mT1 fv.content) (mT2 fv.content) (mT3 fv.content),
           true, true⟩ ∧
      f' = { fv with content := cT4 fv.content }) := by
  by_cases h1 : fv.fexists = false
  · left
    rw [matcher_missing fv h1] at h
    simp only [Except.ok.injEq, Prod.mk.injEq] at h
    exact ⟨h1, h.1.symm, h.2.symm⟩
  · have h1' : fv.fexists = true := by revert h1; cases fv.fexists <;> simp
    by_cases h2 : fv.readable = false
    · rw [matcher_readErr fv h1' h2] at h
      exact absurd h (by simp)
    · have h2' : fv.readable = true := by revert h2; cases fv.readable <;> simp
      by_cases h3 : occurs markT fv.content = true
      · right; left
        rw [matcher_marked fv h1' h2' h3] at h
        simp only [Except.ok.injEq, Prod.mk.injEq] at h
        exact ⟨h1', h2', h3, h.1.symm, h.2.symm⟩
      · have h3' : occurs markT fv.content = false := by
          revert h3; cases occurs markT fv.content <;> simp
        by_cases h4 : fv.writable = false
        · rw [matcher_writeErr fv h1' h2' h3' h4] at h
          exact absurd h (by simp)
        · have h4' : fv.writable = true := by revert h4; cases fv.writable <;> simp
          right; right
          rw [matcher_run fv h1' h2' h3' h4'] at h
          simp only [Except.ok.injEq, Prod.mk.injEq] at h
          exact ⟨h1', h2', h3', h4', h.1.symm, h.2.symm⟩

/-! On every normal return, the Python return value is `False` exactly on the
missing-file path. -/

theorem customOps_ret {fv : FileView} {r : UnitResult} {f' : FileView}
    (h : patchCustomOps fv = .ok (r, f')) :
    (r.ret = false ↔ r.outcome = .skippedMissing) := by
  rcases customOps_shape h with ⟨_, hr, _⟩ | ⟨_, _, _, hr, _⟩ | ⟨_, _, _, _, hr, _⟩ <;>
    subst hr <;> simp [classify2_ne_missing]

theorem mxfp4_ret {fv : FileView} {r : UnitResult} {f' : FileView}
    (h : patchMxfp4 fv = .ok (r, f')) :
    (r.ret = false ↔ r.outcome = .skippedMissing) := by
  rcases mxfp4_shape h with ⟨_, hr, _⟩ | ⟨_, _, _, hr, _⟩ | ⟨_, _, _, _, hr, _⟩ <;>
    subst hr <;> simp [classifyM_ne_missing]

theorem w8a8_ret {fv : FileView} {r : UnitResult} {f' : FileView}
    (h : patchW8a8 fv = .ok (r, f')) :
    (r.ret = false ↔ r.outcome = .skippedMissing) := by
  rcases w8a8_shape h with ⟨_, hr, _⟩ | ⟨_, _, _, hr, _⟩ | ⟨_, _, _, _, hr, _⟩ <;>
    subst hr <;> simp [classify2_ne_missing]

theorem matcher_ret {fv : FileView} {r : UnitResult} {f' : FileView}
    (h : patchMatcher fv = .ok (r, f')) :
    (r.ret = false ↔ r.outcome = .skippedMissing) := by
  rcases matcher_shape h with ⟨_, hr, _⟩ | ⟨_, _, _, hr, _⟩ | ⟨_, _, _, _, hr, _⟩ <;>
    subst hr <;> simp [classify4_ne_missing]

/-! With a readable, writable target, every unit returns normally and its
return value records exactly whether the file existed. -/

theorem customOps_total (fv : FileView) (h2 : fv.readable = true)
    (h4 : fv.writable = true) :
    ∃ r f', patchCustomOps fv = .ok (r, f') ∧ r.ret = fv.fexists := by
  by_cases h1 : fv.fexists = false
  · exact ⟨_, _, customOps_missing fv h1, h1.symm⟩
  · have h1' : fv.fexists = true := by revert h1; cases fv.fexists <;> simp
    by_cases h3 : occurs mark1 fv.content = true
    · exact ⟨_, _, customOps_marked fv h1' h2 h3, h1'.symm⟩
    · have h3' : occurs mark1 fv.content = false := by
        revert h3; cases occurs mark1 fv.content <;> simp
      exact ⟨_, _, customOps_run fv h1' h2 h3' h4, h1'.symm⟩

theorem mxfp4_total (fv : FileView) (h2 : fv.readable = true)
    (h4 : fv.writable = true) :
    ∃ r f', patchMxfp4 fv = .ok (r, f') ∧ r.ret = fv.fexists := by
  by_cases h1 : fv.fexists = false
  · exact ⟨_, _, mxfp4_missing fv h1, h1.symm⟩
  · have h1' : fv.fexists = true := by revert h1; cases fv.fexists <;> simp
    by_cases h3 : occurs markM fv.content = true
    · exact ⟨_, _, mxfp4_marked fv h1' h2 h3, h1'.symm⟩
    · have h3' : occurs markM fv.content = false := by
        revert h3; cases occurs markM fv.content <;> simp
      exact ⟨_, _, mxfp4_run fv h1' h2 h3' h4, h1'.symm⟩

theorem w8a8_total (fv : FileView) (h2 : fv.readable = true)
    (h4 : fv.writable = true) :
    ∃ r f', patchW8a8 fv = .ok (r, f') ∧ r.ret = fv.fexists := by
  by_cases h1 : fv.fexists = false
  · exact ⟨_, _, w8a8_missing fv h1, h1.symm⟩
  · have h1' : fv.fexists = true := by revert h1; cases fv.fexists <;> simp
    by_cases h3 : (occurs markW1 fv.content && occurs markW2 fv.content) = true
    · exact ⟨_, _, w8a8_marked fv h1' h2 h3, h1'.symm⟩
    · have h3' : (occurs markW1 fv.content && occurs markW2 fv.content) = false := by
        revert h3; cases occurs markW1 fv.content && occurs markW2 fv.content <;> simp
      exact ⟨_, _, w8a8_run fv h1' h2 h3' h4, h1'.symm⟩

theorem matcher_total (fv : FileView) (h2 : fv.readable = true)
    (h4 : fv.writable = true) :
    ∃ r f', patchMatcher fv = .ok (r, f') ∧ r.ret = fv.fexists := by
  by_cases h1 : fv.fexists = false
  · exact ⟨_, _, matcher_missing fv h1, h1.symm⟩
  · have h1' : fv.fexists = true := by revert h1; cases fv.fexists <;> simp
    by_cases h3 : occurs markT fv.content = true
    · exact ⟨_, _, matcher_marked fv h1' h2 h3, h1'.symm⟩
    · have h3' : occurs markT fv.content = false := by
        revert h3; cases occurs markT fv.content <;> simp
      exact ⟨_, _, matcher_run fv h1' h2 h3' h4, h1'.symm⟩

/-! Claims. -/

/-- Claim C6: whenever the idempotency predicate of a unit matches the file
content, the unit returns `skipped-already-applied`, performs no write, and
leaves the file untouched.  Stated for the three cited units
(`patch_custom_ops`, `patch_w8a8_utils`, `patch_matcher_utils`); writability
is not even consulted on this path. -/
theorem c6_marker_skips :
    (∀ fv : FileView, fv.fexists = true → fv.readable = true →
       occurs mark1 fv.content = true →
       patchCustomOps fv = .ok (⟨.alreadyApplied, true, false⟩, fv)) ∧
    (∀ fv : FileView, fv.fexists = true → fv.readable = true →
       (occurs markW1 fv.content && occurs markW2 fv.content) = true →
       patchW8a8 fv = .ok (⟨.alreadyApplied, true, false⟩, fv)) ∧
    (∀ fv : FileView, fv.fexists = true → fv.readable = true →
       occurs markT fv.content = true →
       patchMatcher fv = .ok (⟨.alreadyApplied, true, false⟩, fv)) :=
  ⟨customOps_marked, w8a8_marked, matcher_marked⟩

/-- Witness for C6: each unit skips on a concrete already-patched content,
even on a non-writable file. -/
theorem c6_marker_skips_w :
    patchCustomOps ⟨true, true, false, mark1⟩ =
      .ok (⟨.alreadyApplied, true, false⟩, ⟨true, true, false, mark1⟩) ∧
    patchW8a8 ⟨true, true, false, markW1 ++ '\n' :: markW2⟩ =
      .ok (⟨.alreadyApplied, true, false⟩, ⟨true, true, false, markW1 ++ '\n' :: markW2⟩) ∧
    patchMatcher ⟨true, true, false, markT⟩ =
      .ok (⟨.alreadyApplied, true, false⟩, ⟨true, true, false, markT⟩) :=
  ⟨c6_marker_skips.1 ⟨true, true, false, mark1⟩ rfl rfl (by rfl),
   c6_marker_skips.2.1 ⟨true, true, false, markW1 ++ '\n' :: markW2⟩ rfl rfl (by rfl),
   c6_marker_skips.2.2 ⟨true, true, false, markT⟩ rfl rfl (by rfl)⟩

/-- Counterexample for C7: a target that exists but is not readable does not
yield `skipped-missing`; the unit raises an I/O error instead.  The code only
tests `os.path.exists`, so "does not resolve to an existing readable file"
is not the condition it skips on. -/
theorem c7_counterexample :
    patchCustomOps ⟨true, false, true, []⟩ = .error .readErr := by rfl

/-- Claim C7 (amended): if the target path does not exist, every unit returns
`skipped-missing` immediately with no read and no write and an unchanged file;
an existing but unreadable target instead raises an `IOError` for that unit. -/
theorem c7_amended :
    (∀ fv : FileView, fv.fexists = false →
       patchCustomOps fv = .ok (⟨.skippedMissing, false, false⟩, fv) ∧
       patchMxfp4 fv = .ok (⟨.skippedMissing, false, false⟩, fv) ∧
       patchW8a8 fv = .ok (⟨.skippedMissing, false, false⟩, fv) ∧
       patchMatcher fv = .ok (⟨.skippedMissing, false, false⟩, fv)) ∧
    (∀ fv : FileView, fv.fexists = true → fv.readable = false →
       patchCustomOps fv = .error .readErr ∧
       patchMxfp4 fv = .error .readErr ∧
       patchW8a8 fv = .error .readErr ∧
       patchMatcher fv = .error .readErr) :=
  ⟨fun fv h => ⟨customOps_missing fv h, mxfp4_missing fv h, w8a8_missing fv h,
     matcher_missing fv h⟩,
   fun fv h1 h2 => ⟨customOps_readErr fv h1 h2, mxfp4_readErr fv h1 h2,
     w8a8_readErr fv h1 h2, matcher_readErr fv h1 h2⟩⟩

/-- Witness for C7 (amended) at concrete file states. -/
theorem c7_amended_w :
    (patchCustomOps ⟨false, true, true, []⟩ =
       .ok (⟨.skippedMissing, false, false⟩, ⟨false, true, true, []⟩) ∧
     patchMxfp4 ⟨false, true, true, []⟩ =
       .ok (⟨.skippedMissing, false, false⟩, ⟨false, true, true, []⟩) ∧
     patchW8a8 ⟨false, true, true, []⟩ =
       .ok (⟨.skippedMissing, false, false⟩, ⟨false, true, true, []⟩) ∧
     patchMatcher ⟨false, true, true, []⟩ =
       .ok (⟨.skippedMissing, false, false⟩, ⟨false, true, true, []⟩)) ∧
    (patchCustomOps ⟨true, false, true, ("x").data⟩ = .error .readErr ∧
     patchMxfp4 ⟨true, false, true, ("x").data⟩ = .error .readErr ∧
     patchW8a8 ⟨true, false, true, ("x").data⟩ = .error .readErr ∧
     patchMatcher ⟨true, false, true, ("x").data⟩ = .error .readErr) :=
  ⟨c7_amended.1 ⟨false, true, true, []⟩ rfl,
   c7_amended.2 ⟨true, false, true, ("x").data⟩ rfl rfl⟩

/-- Counterexample for C4: on an existing file whose content matches neither
the idempotency marker nor any rule (content `"x"`), `patch_custom_ops` still
performs a write (`wrote = true`), refuting "if zero rules matched, do not
write". -/
theorem c4_counterexample :
    patchCustomOps ⟨true, true, true, ("x").data⟩ =
      .ok (⟨.noop, true, true⟩, ⟨true, true, true, ("x").data⟩) := by rfl

/-- Claim C4 (amended): when the idempotency predicate does not match, the
unit writes back unconditionally — also when zero rules matched — but in the
zero-match case the written content is exactly the content read, so the file
is unchanged.  Stated for the two cited units. -/
theorem c4_amended :
    (∀ fv : FileView, fv.fexists = true → fv.readable = true → fv.writable = true →
       occurs mark1 fv.content = false → occurs oldA fv.content = false →
       occurs oldB fv.content = false →
       patchCustomOps fv = .ok (⟨.noop, true, true⟩, fv)) ∧
    (∀ fv : FileView, fv.fexists = true → fv.readable = true → fv.writable = true →
       occurs markM fv.content = false → occurs patM fv.content = false →
       patchMxfp4 fv = .ok (⟨.noop, true, true⟩, fv)) := by
  constructor
  · intro fv h1 h2 h3 hm hA hB
    rw [customOps_run fv h1 h2 hm h3]
    have hsA : stepA fv.content = fv.content := by simp [stepA, hA]
    have hsB : stepB fv.content = fv.content := by simp [stepB, hB]
    rw [hsA, hsB, hA, hB, fileView_update_self]
    rfl
  · intro fv h1 h2 h3 hm hP
    rw [mxfp4_run fv h1 h2 hm h3]
    have hs : stepM fv.content = fv.content := by simp [stepM, hP]
    rw [hs, hP, fileView_update_self]
    rfl

/-- Witness for C4 (amended) on content `"y"`. -/
theorem c4_amended_w :
    patchCustomOps ⟨true, true, true, ("y").data⟩ =
      .ok (⟨.noop, true, true⟩, ⟨true, true, true, ("y").data⟩) ∧
    patchMxfp4 ⟨true, true, true, ("y").data⟩ =
      .ok (⟨.noop, true, true⟩, ⟨true, true, true, ("y").data⟩) :=
  ⟨c4_amended.1 ⟨true, true, true, ("y").data⟩ rfl rfl rfl (by rfl) (by rfl) (by rfl),
   c4_amended.2 ⟨true, true, true, ("y").data⟩ rfl rfl rfl (by rfl) (by rfl)⟩

/-- Claim C10: a run on an existing file containing neither the idempotency
marker nor any rule pattern still writes, but the written content is
byte-identical to the content read, so the resulting file state equals the
initial one (`wrote = true`, outcome `no-op`).  Stated for the two cited
units (`patch_custom_ops`, `patch_matcher_utils`). -/
theorem c10_noop_writes_identical :
    (∀ fv : FileView, fv.fexists = true → fv.readable = true → fv.writable = true →
       occurs mark1 fv.content = false → occurs oldA fv.content = false →
       occurs oldB fv.content = false →
       patchCustomOps fv = .ok (⟨.noop, true, true⟩, fv)) ∧
    (∀ fv : FileView, fv.fexists = true → fv.readable = true → fv.writable = true →
       occurs markT fv.content = false → occurs oldT0 fv.content = false →
       occurs oldT1 fv.content = false → occurs oldT2 fv.content = false →
       occurs oldT3 fv.content = false →
       patchMatcher fv = .ok (⟨.noop, true, true⟩, fv)) := by
  constructor
  · intro fv h1 h2 h3 hm hA hB
    rw [customOps_run fv h1 h2 hm h3]
    have hsA : stepA fv.content = fv.content := by simp [stepA, hA]
    have hsB : stepB fv.content = fv.content := by simp [stepB, hB]
    rw [hsA, hsB, hA, hB, fileView_update_self]
    rfl
  · intro fv h1 h2 h3 hm hT0 hT1 hT2 hT3
    rw [matcher_run fv h1 h2 hm h3]
    have e0 : cT1 fv.content = fv.content := by simp [cT1, stepT0, hT0]
    have g1 : mT1 fv.content = false := by simp [mT1, guardT, e0, hT1]
    have e1 : cT2 fv.content = fv.content := by simp [cT2, stepTG, guardT, e0, hT1]
    have g2 : mT2 fv.content = false := by simp [mT2, guardT, e1, hT2]
    have e2 : cT3 fv.content = fv.content := by simp [cT3, stepTG, guardT, e1, hT2]
    have g3 : mT3 fv.content = false := by simp [mT3, guardT, e2, hT3]
    have e3 : cT4 fv.content = fv.content := by simp [cT4, stepTG, guardT, e2, hT3]
    have g0 : mT0 fv.content = false := by simp [mT0, hT0]
    rw [g0, g1, g2, g3, e3, fileView_update_self]
    rfl

/-- Witness for C10 on content `"z"`. -/
theorem c10_noop_writes_identical_w :
    patchCustomOps ⟨true, true, true, ("z").data⟩ =
      .ok (⟨.noop, true, true⟩, ⟨true, true, true, ("z").data⟩) ∧
    patchMatcher ⟨true, true, true, ("z").data⟩ =
      .ok (⟨.noop, true, true⟩, ⟨true, true, true, ("z").data⟩) :=
  ⟨c10_noop_writes_identical.1 ⟨true, true, true, ("z").data⟩ rfl rfl rfl
     (by rfl) (by rfl) (by rfl),
   c10_noop_writes_identical.2 ⟨true, true, true, ("z").data⟩ rfl rfl rfl
     (by rfl) (by rfl) (by rfl) (by rfl) (by rfl)⟩

/-- Claim C5: rules are applied in order and independently — each rule whose
pattern occurs has all its occurrences replaced, a rule whose pattern is
absent leaves the content to the remaining rules, and when only one of the
two rules matches the outcome is `applied-partial` and the file is still
written.  Stated for the two cited units (`patch_custom_ops`,
`patch_w8a8_utils`); the first conjunct of each part characterises the full
run, the second instantiates the one-of-two-rules scenario. -/
theorem c5_rules_independent :
    (∀ fv : FileView, fv.fexists = true → fv.readable = true → fv.writable = true →
       occurs mark1 fv.content = false →
       (patchCustomOps fv =
          .ok (⟨classify2 (occurs oldA fv.content) (occurs oldB (stepA fv.content)),
                true, true⟩,
               { fv with content := stepB (stepA fv.content) }) ∧
        (occurs oldA fv.content = false → occurs oldB fv.content = true →
          patchCustomOps fv =
            .ok (⟨.partiallyApplied, true, true⟩,
                 { fv with content := replaceAll oldB newB fv.content })))) ∧
    (∀ fv : FileView, fv.fexists = true → fv.readable = true → fv.writable = true →
       (occurs markW1 fv.content && occurs markW2 fv.content) = false →
       (patchW8a8 fv =
          .ok (⟨classify2 (occurs oldW1 fv.content) (occurs oldW2 (stepW1 fv.content)),
                true, true⟩,
               { fv with content := stepW2 (stepW1 fv.content) }) ∧
        (occurs oldW1 fv.content = false → occurs oldW2 fv.content = true →
          patchW8a8 fv =
            .ok (⟨.partiallyApplied, true, true⟩,
                 { fv with content := replaceAll oldW2 newW2 fv.content })))) := by
  constructor
  · intro fv h1 h2 h3 hm
    refine ⟨customOps_run fv h1 h2 hm h3, ?_⟩
    intro hA hB
    rw [customOps_run fv h1 h2 hm h3]
    have hsA : stepA fv.content = fv.content := by simp [stepA, hA]
    rw [hsA, hA, hB]
    simp [classify2, stepB, hB]
  · intro fv h1 h2 h3 hm
    refine ⟨w8a8_run fv h1 h2 hm h3, ?_⟩
    intro hA hB
    rw [w8a8_run fv h1 h2 hm h3]
    have hsA : stepW1 fv.content = fv.content := by simp [stepW1, hA]
    rw [hsA, hA, hB]
    simp [classify2, stepW2, hB]

/-- Witness for C5: files containing only the second rule's pattern yield
`applied-partial` and are rewritten with that rule's replacement. -/
theorem c5_rules_independent_w :
    patchCustomOps ⟨true, true, true, oldB⟩ =
      .ok (⟨.partiallyApplied, true, true⟩, ⟨true, true, true, replaceAll oldB newB oldB⟩) ∧
    patchW8a8 ⟨true, true, true, oldW2⟩ =
      .ok (⟨.partiallyApplied, true, true⟩, ⟨true, true, true, replaceAll oldW2 newW2 oldW2⟩) :=
  ⟨(c5_rules_independent.1 ⟨true, true, true, oldB⟩ rfl rfl rfl (by rfl)).2 (by rfl) (by rfl),
   (c5_rules_independent.2 ⟨true, true, true, oldW2⟩ rfl rfl rfl (by rfl)).2 (by rfl) (by rfl)⟩

/-- World used by the counterexample to C2: the first target exists but is
unreadable, the second target exists, is writable and contains the mxfp4
pattern. -/
def lineOld : List Char := ("if cap < (11, 0):").data

/-- The patched form of `lineOld`. -/
def lineNew : List Char := ("if cap <= (12, 1):").data

def wC2 : World :=
  ⟨⟨true, false, true, []⟩, ⟨true, true, true, lineOld⟩,
   ⟨true, true, true, []⟩, ⟨true, true, true, []⟩⟩

/-- Counterexample for C2: when unit A (`patch_custom_ops`) hits an
`IOFailure`, the run aborts with the propagating exception and the world is
returned unchanged — in particular unit B (`patch_mxfp4`), which would have
succeeded with outcome `applied` (second conjunct), never executes and its
effect is not observed. -/
theorem c2_counterexample :
    mainRun wC2 = (.error .readErr, wC2) ∧
    patchMxfp4 wC2.mxfp4 = .ok (⟨.applied, true, true⟩, ⟨true, true, true, lineNew⟩) :=
  ⟨by rfl, by rfl⟩

/-- Claim C2 (amended): an `IOFailure` is not local to its unit — a read
failure in the first unit propagates as an uncaught exception, aborts the
whole run before any later unit executes, and leaves every file unchanged;
`main` never returns an exit indicator in that case. -/
theorem c2_amended :
    ∀ w : World, w.customOps.fexists = true → w.customOps.readable = false →
      mainRun w = (.error .readErr, w) := by
  intro w h1 h2
  simp [mainRun, customOps_readErr w.customOps h1 h2]

def wC2w : World :=
  ⟨⟨true, false, true, ("q").data⟩, ⟨true, true, true, []⟩,
   ⟨true, true, true, []⟩, ⟨true, true, true, []⟩⟩

/-- Witness for C2 (amended). -/
theorem c2_amended_w : mainRun wC2w = (.error .readErr, wC2w) :=
  c2_amended wC2w rfl rfl

def wC1 : World :=
  ⟨⟨false, true, true, []⟩, ⟨true, true, true, []⟩,
   ⟨true, true, true, []⟩, ⟨true, true, true, []⟩⟩

/-- Counterexample for C1: with the first target file missing and the other
three present (empty), no unit produces a hard failure — the run completes
normally, every outcome is in the warning/skip class — yet the exit indicator
is 1, because `main` counts the `skipped-missing` unit's `False` return as a
failure.  So `skipped-missing` does flip the overall status. -/
theorem c1_counterexample :
    (mainRun wC1).1 =
      .ok ([⟨.skippedMissing, false, false⟩, ⟨.noop, true, true⟩,
            ⟨.noop, true, true⟩, ⟨.noop, true, true⟩], 1) := by rfl

/-- Claim C1 (amended): on every normally completing run, the exit indicator
is 0 exactly when no unit's outcome is `skipped-missing`; `applied-partial`
and `no-op` never flip the status, but `skipped-missing` does, and a hard
failure (`IOFailure`) instead aborts the run with no exit indicator from
`main`. -/
theorem c1_amended :
    ∀ (w : World) (rs : List UnitResult) (n : Nat),
      (mainRun w).1 = .ok (rs, n) →
      (n = 0 ↔ ∀ r ∈ rs, r.outcome ≠ PatchOutcome.skippedMissing) := by
  intro w rs n h
  rcases e1 : patchCustomOps w.customOps with er1 | ⟨r1, f1⟩
  · simp [mainRun, e1] at h
  · rcases e2 : patchMxfp4 w.mxfp4 with er2 | ⟨r2, f2⟩
    · simp [mainRun, e1, e2] at h
    · rcases e3 : patchW8a8 w.w8a8 with er3 | ⟨r3, f3⟩
      · simp [mainRun, e1, e2, e3] at h
      · rcases e4 : patchMatcher w.matcher with er4 | ⟨r4, f4⟩
        · simp [mainRun, e1, e2, e3, e4] at h
        · simp only [mainRun, e1, e2, e3, e4, Except.ok.injEq, Prod.mk.injEq] at h
          obtain ⟨hrs, hn⟩ := h
          subst hrs
          subst hn
          have q1 := customOps_ret e1
          have q2 := mxfp4_ret e2
          have q3 := w8a8_ret e3
          have q4 := matcher_ret e4
          constructor
          · intro h0 r hr
            by_cases hb : (r1.ret && r2.ret && r3.ret && r4.ret) = true
            · simp only [Bool.and_eq_true] at hb
              obtain ⟨⟨⟨b1, b2⟩, b3⟩, b4⟩ := hb
              simp only [List.mem_cons, List.not_mem_nil, or_false] at hr
              rcases hr with hr | hr | hr | hr <;> subst hr <;> intro hsm
              · rw [q1.mpr hsm] at b1; exact absurd b1 (by simp)
              · rw [q2.mpr hsm] at b2; exact absurd b2 (by simp)
              · rw [q3.mpr hsm] at b3; exact absurd b3 (by simp)
              · rw [q4.mpr hsm] at b4; exact absurd b4 (by simp)
            · rw [if_neg hb] at h0
              exact absurd h0 (by simp)
          · intro hall
            have b1 : r1.ret = true := by
              cases hb : r1.ret
              · exact absurd (q1.mp hb) (hall r1 (by simp))
              · rfl
            have b2 : r2.ret = true := by
              cases hb : r2.ret
              · exact absurd (q2.mp hb) (hall r2 (by simp))
              · rfl
            have b3 : r3.ret = true := by
              cases hb : r3.ret
              · exact absurd (q3.mp hb) (hall r3 (by simp))
              · rfl
            have b4 : r4.ret = true := by
              cases hb : r4.ret
              · exact absurd (q4.mp hb) (hall r4 (by simp))
              · rfl
            simp [b1, b2, b3, b4]

def wC1w : World :=
  ⟨⟨true, true, true, []⟩, ⟨true, true, true, []⟩,
   ⟨true, true, true, []⟩, ⟨true, true, true, []⟩⟩

/-- Witness for C1 (amended): a run of four no-op units exits 0. -/
theorem c1_amended_w :
    (0 : Nat) = 0 ↔
      ∀ r ∈ [(⟨.noop, true, true⟩ : UnitResult), ⟨.noop, true, true⟩,
             ⟨.noop, true, true⟩, ⟨.noop, true, true⟩],
        r.outcome ≠ PatchOutcome.skippedMissing :=
  c1_amended wC1w
    [⟨.noop, true, true⟩, ⟨.noop, true, true⟩, ⟨.noop, true, true⟩, ⟨.noop, true, true⟩]
    0 (by rfl)

/-- Claim C9: assuming reads and writes succeed, each of the four patch
functions returns normally and returns `False` exactly when its target file
does not exist, and `main` returns 0 exactly when all four target files
exist (else 1). -/
theorem c9_ret_iff_exists :
    ∀ w : World,
      w.customOps.readable = true → w.customOps.writable = true →
      w.mxfp4.readable = true → w.mxfp4.writable = true →
      w.w8a8.readable = true → w.w8a8.writable = true →
      w.matcher.readable = true → w.matcher.writable = true →
      retOf (patchCustomOps w.customOps) = some w.customOps.fexists ∧
      retOf (patchMxfp4 w.mxfp4) = some w.mxfp4.fexists ∧
      retOf (patchW8a8 w.w8a8) = some w.w8a8.fexists ∧
      retOf (patchMatcher w.matcher) = some w.matcher.fexists ∧
      exitCodeOf w = some (if w.customOps.fexists && w.mxfp4.fexists &&
        w.w8a8.fexists && w.matcher.fexists then 0 else 1) := by
  intro w hr1 hw1 hr2 hw2 hr3 hw3 hr4 hw4
  obtain ⟨r1, f1, e1, hret1⟩ := customOps_total w.customOps hr1 hw1
  obtain ⟨r2, f2, e2, hret2⟩ := mxfp4_total w.mxfp4 hr2 hw2
  obtain ⟨r3, f3, e3, hret3⟩ := w8a8_total w.w8a8 hr3 hw3
  obtain ⟨r4, f4, e4, hret4⟩ := matcher_total w.matcher hr4 hw4
  refine ⟨by simp [retOf, e1, hret1], by simp [retOf, e2, hret2],
          by simp [retOf, e3, hret3], by simp [retOf, e4, hret4], ?_⟩
  simp only [exitCodeOf, mainRun, e1, e2, e3, e4]
  rw [hret1, hret2, hret3, hret4]

def wC9 : World :=
  ⟨⟨false, true, true, []⟩, ⟨true, true, true, []⟩,
   ⟨true, true, true, []⟩, ⟨true, true, true, []⟩⟩

/-- Witness for C9: with the first target missing, every unit still returns,
the first returns `False`, and `main` returns 1. -/
theorem c9_ret_iff_exists_w :
    retOf (patchCustomOps wC9.customOps) = some wC9.customOps.fexists ∧
    retOf (patchMxfp4 wC9.mxfp4) = some wC9.mxfp4.fexists ∧
    retOf (patchW8a8 wC9.w8a8) = some wC9.w8a8.fexists ∧
    retOf (patchMatcher wC9.matcher) = some wC9.matcher.fexists ∧
    exitCodeOf wC9 = some (if wC9.customOps.fexists && wC9.mxfp4.fexists &&
      wC9.w8a8.fexists && wC9.matcher.fexists then 0 else 1) :=
  c9_ret_iff_exists wC9 rfl rfl rfl rfl rfl rfl rfl rfl

/-! Concrete no-overlap facts about the patch strings, all checked by
computation.  They feed the `replaceAll` splitting lemmas. -/

theorem patM_ne : patM ≠ [] := by decide

theorem oldA_ne : oldA ≠ [] := by decide

theorem oldB_ne : oldB ≠ [] := by decide

/-- No non-empty proper suffix of `patM` is a prefix of `patM`. -/
theorem patM_self : ∀ j, j < patM.length → 1 ≤ j → pfx (patM.drop j) patM = false := by
  decide

/-- No non-empty proper suffix of `oldA` is a prefix of `oldA`. -/
theorem oldA_self : ∀ j, j < oldA.length → 1 ≤ j → pfx (oldA.drop j) oldA = false := by
  decide

/-- No non-empty proper suffix of `oldB` is a prefix of `newA`. -/
theorem oldB_keepL : ∀ j, j < oldB.length → 1 ≤ j → pfx (oldB.drop j) newA = false := by
  decide

/-- No proper suffix of `newA` shorter than `oldB` is a prefix of `oldB`. -/
theorem oldB_keepR :
    ∀ q, q < newA.length → newA.length < q + oldB.length →
      pfx (newA.drop q) oldB = false := by
  decide

theorem oldB_keepLen : oldB.length ≤ newA.length + 1 := by decide

theorem oldB_notin_newA : occurs oldB newA = false := by rfl

theorem mark1_in_newA : occurs mark1 newA = true := by rfl

theorem markM_in_repM : occurs markM repM = true := by rfl

/-- Counterexample for C3: on an existing empty file the first run of
`patch_custom_ops` yields `no-op` (and a rewrite of identical bytes), not
`applied` — so "applying the same PatchSpec twice yields `applied` then
`skipped-already-applied`" fails for this initial content. -/
theorem c3_counterexample :
    patchCustomOps ⟨true, true, true, []⟩ =
      .ok (⟨.noop, true, true⟩, ⟨true, true, true, []⟩) := by rfl

/-- Claim C3 (amended): whenever a run of the unit yields `applied`, running
the same unit again on the resulting file yields `skipped-already-applied`
with no write and a byte-identical file; but for an arbitrary initial content
the first run need not be `applied`.  Stated for the two cited units. -/
theorem c3_amended :
    (∀ (fv : FileView) (r : UnitResult) (f' : FileView),
       patchCustomOps fv = .ok (r, f') → r.outcome = .applied →
       patchCustomOps f' = .ok (⟨.alreadyApplied, true, false⟩, f')) ∧
    (∀ (fv : FileView) (r : UnitResult) (f' : FileView),
       patchMxfp4 fv = .ok (r, f') → r.outcome = .applied →
       patchMxfp4 f' = .ok (⟨.alreadyApplied, true, false⟩, f')) := by
  constructor
  · intro fv r f' h happ
    rcases customOps_shape h with ⟨_, hr, _⟩ | ⟨_, _, _, hr, _⟩ | ⟨h1, h2, h3, h4, hr, hf⟩
    · subst hr; simp at happ
    · subst hr; simp at happ
    · subst hr
      have happ' : classify2 (occurs oldA fv.content) (occurs oldB (stepA fv.content)) =
          .applied := happ
      obtain ⟨m1, m2⟩ := classify2_applied happ'
      have hstepA : stepA fv.content = replaceAll oldA newA fv.content := by
        simp [stepA, m1]
      have hstepB : stepB (stepA fv.content) = replaceAll oldB newB (stepA fv.content) := by
        simp [stepB, m2]
      obtain ⟨p, q, hc⟩ := occurs_exists m1
      have hc1 : stepA fv.content =
          replaceAll oldA newA p ++ newA ++ replaceAll oldA newA q := by
        rw [hstepA, hc, replaceAll_mid_self oldA newA oldA_ne oldA_self]
      have hc2 : stepB (stepA fv.content) =
          replaceAll oldB newB (replaceAll oldA newA p) ++ newA ++
            replaceAll oldB newB (replaceAll oldA newA q) := by
        rw [hstepB, hc1,
          replaceAll_mid_keep oldB newB newA oldB_ne oldB_keepLen oldB_keepL oldB_keepR
            oldB_notin_newA]
      have hmark : occurs mark1 (stepB (stepA fv.content)) = true := by
        rw [hc2]
        exact occurs_mono _ _ mark1_in_newA
      have hf1 : f'.fexists = true := by rw [hf]; exact h1
      have hf2 : f'.readable = true := by rw [hf]; exact h2
      have hf3 : occurs mark1 f'.content = true := by rw [hf]; exact hmark
      exact customOps_marked f' hf1 hf2 hf3
  · intro fv r f' h happ
    rcases mxfp4_shape h with ⟨_, hr, _⟩ | ⟨_, _, _, hr, _⟩ | ⟨h1, h2, h3, h4, hr, hf⟩
    · subst hr; simp at happ
    · subst hr; simp at happ
    · subst hr
      have happ' : classifyM (occurs patM fv.content) = .applied := happ
      have m1 : occurs patM fv.content = true := classifyM_applied happ'
      have hstep : stepM fv.content = replaceAll patM repM fv.content := by
        simp [stepM, m1]
      obtain ⟨p, q, hc⟩ := occurs_exists m1
      have hc1 : stepM fv.content =
          replaceAll patM repM p ++ repM ++ replaceAll patM repM q := by
        rw [hstep, hc, replaceAll_mid_self patM repM patM_ne patM_self]
      have hmark : occurs markM (stepM fv.content) = true := by
        rw [hc1]
        exact occurs_mono _ _ markM_in_repM
      have hf1 : f'.fexists = true := by rw [hf]; exact h1
      have hf2 : f'.readable = true := by rw [hf]; exact h2
      have hf3 : occurs markM f'.content = true := by rw [hf]; exact hmark
      exact mxfp4_marked f' hf1 hf2 hf3

/-- Initial content for the C3 witness: both rule patterns present. -/
def cW3 : List Char := oldA ++ '\n' :: oldB

/-- Witness for C3 (amended): after an `applied` first run on concrete
contents, the second run skips. -/
theorem c3_amended_w :
    patchCustomOps ⟨true, true, true, stepB (stepA cW3)⟩ =
      .ok (⟨.alreadyApplied, true, false⟩, ⟨true, true, true, stepB (stepA cW3)⟩) ∧
    patchMxfp4 ⟨true, true, true, stepM lineOld⟩ =
      .ok (⟨.alreadyApplied, true, false⟩, ⟨true, true, true, stepM lineOld⟩) :=
  ⟨c3_amended.1 ⟨true, true, true, cW3⟩ ⟨.applied, true, true⟩
     ⟨true, true, true, stepB (stepA cW3)⟩ (by rfl) rfl,
   c3_amended.2 ⟨true, true, true, lineOld⟩ ⟨.applied, true, true⟩
     ⟨true, true, true, stepM lineOld⟩ (by rfl) rfl⟩

/-! Concrete facts for C8. -/

theorem patM_occurs_lineOld : occurs patM lineOld = true := by rfl

/-- No non-empty proper suffix of `patM` is a prefix of `lineOld`. -/
theorem c8_hL : ∀ j, j < patM.length → 1 ≤ j → pfx (patM.drop j) lineOld = false := by
  decide

/-- No proper suffix of `lineOld` shorter than `patM` is a prefix of `patM`. -/
theorem c8_hR :
    ∀ q, q < lineOld.length → lineOld.length < q + patM.length →
      pfx (lineOld.drop q) patM = false := by
  decide

theorem c8_hlen : patM.length ≤ lineOld.length + 1 := by decide

theorem rAll_lineOld : replaceAll patM repM lineOld = lineNew := by rfl

/-- Claim C8: for any content of the form `a ++ "if cap < (11, 0):" ++ b`
that does not already contain the marker `"<= (12, 1)"`, `patch_mxfp4`
yields outcome `applied` and the output is
`a' ++ "if cap <= (12, 1):" ++ b'` where `a'`, `b'` are the surrounding
context with the same substitution applied — in particular the whitespace
around the rewritten comparison is preserved byte for byte. -/
theorem c8_regex_applied (a b : List Char)
    (hno : occurs markM (a ++ lineOld ++ b) = false) :
    patchMxfp4 ⟨true, true, true, a ++ lineOld ++ b⟩ =
      .ok (⟨.applied, true, true⟩,
           ⟨true, true, true,
            replaceAll patM repM a ++ lineNew ++ replaceAll patM repM b⟩) := by
  have hocc : occurs patM (a ++ lineOld ++ b) = true :=
    occurs_mono a b patM_occurs_lineOld
  rw [mxfp4_run ⟨true, true, true, a ++ lineOld ++ b⟩ rfl rfl hno rfl]
  have hstep : stepM (a ++ lineOld ++ b) =
      replaceAll patM repM a ++ lineNew ++ replaceAll patM repM b := by
    simp only [stepM, hocc, if_pos]
    rw [replaceAll_split patM repM lineOld a b patM_ne c8_hlen c8_hL c8_hR, rAll_lineOld]
  have hout : classifyM (occurs patM (a ++ lineOld ++ b)) = .applied := by
    rw [hocc]
    rfl
  rw [show (⟨true, true, true, a ++ lineOld ++ b⟩ : FileView).content =
        a ++ lineOld ++ b from rfl, hstep, hout]

def c8a : List Char := ("x = 1\n  ").data

def c8b : List Char := ("  \ny = 2").data

/-- Witness for C8 on concrete surrounding context with whitespace. -/
theorem c8_regex_applied_w :
    patchMxfp4 ⟨true, true, true, c8a ++ lineOld ++ c8b⟩ =
      .ok (⟨.applied, true, true⟩,
           ⟨true, true, true,
            replaceAll patM repM c8a ++ lineNew ++ replaceAll patM repM c8b⟩) :=
  c8_regex_applied c8a c8b (by rfl)

end VllmPatch
